import Mathlib

/-!
Verification of the ArchieAI file-persisted state subsystem and streaming
bridge, as a shallow embedding of the Python source:

* the SSE generators `chat_stream.generate` (api.py) and
  `api_archie_stream.generate` (src/app.py),
* `SessionManager` (src/lib/SessionManager.py),
* `APIKeyManager` (api.py).

Pure functions from the source become Lean functions; file I/O becomes
explicit state passing over a model of the persisted files, with the
filesystem operations that a call performs recorded in an explicit trace.
-/

set_option autoImplicit false

namespace ArchieAI

/-! ## Streaming bridge.  Both generators drain
`gemini.Archie_streaming(...)` with `loop.run_until_complete` in a
`while True` loop and dispatch on chunk shape.  A producer run is modelled
as the list of chunks it yields, in order, followed by how it ends
(normal `StopAsyncIteration` or an exception). -/

/-- One chunk yielded by the producer: a plain string
(`isinstance(chunk, str)`), a dict with a truthy `tool_name`, or the
`{'final': ...}` sentinel dict (the producer's contracted taxonomy). -/
inductive Chunk where
  | text (s : String)
  | toolEvent (toolName : String) (toolResult : String)
  | final
  deriving DecidableEq

/-- How the producer ends: normal exhaustion (`StopAsyncIteration`) or an
exception carrying message `msg`. -/
inductive Outcome where
  | exhausted
  | raised (msg : String)
  deriving DecidableEq

/-- A full producer run: the chunks yielded in order, then how it ended. -/
structure ProducerRun where
  chunks : List Chunk
  outcome : Outcome
  deriving DecidableEq

/-- A wire frame: the JSON payload shapes `token`, `tool_call`, `done`,
`error` of the SSE protocol. -/
inductive Frame where
  | token (s : String)
  | toolCall (toolName : String) (preview : String)
  | done
  | error (msg : String)
  deriving DecidableEq

/-- A persistence side effect performed inside a generator body. -/
inductive Effect where
  | addMessage (sessionId : String) (role : String) (content : String)
  | logInteraction (sessionId : String) (question : String) (answer : String)
  deriving DecidableEq

/-- One observable event of a streaming run: a frame yielded to the client
or a persistence call, in program order. -/
inductive Event where
  | frame (f : Frame)
  | effect (e : Effect)
  deriving DecidableEq

def TOOL_RESULT_PREVIEW_LENGTH : Nat := 500

/-- Events produced for one chunk by the dispatch in the drain loop
(identical in both generators for the three contracted chunk shapes): a
string chunk is appended to `full_response` and emitted as a token frame;
a `tool_name` dict is emitted as a `tool_call` frame with the result
truncated by `str(chunk.get('tool_result'))[:500]`; a `final` dict is
ignored. -/
def chunkEvents : Chunk → List Event
  | .text s => [.frame (.token s)]
  | .toolEvent n r => [.frame (.toolCall n (r.take TOOL_RESULT_PREVIEW_LENGTH))]
  | .final => []

/-- Events of a whole chunk list, in producer order. -/
def chunkListEvents : List Chunk → List Event
  | [] => []
  | c :: cs => chunkEvents c ++ chunkListEvents cs

/-- The accumulator `full_response` after draining: the concatenation of the string chunks
in producer order. -/
def fullResponse (chunks : List Chunk) : String :=
  chunks.foldl (fun acc c => match c with | .text s => acc ++ s | _ => acc) ""

/-- The generator of `chat_stream` in api.py: drain the producer; on
exhaustion call `api_data_collector.log_interaction` (with
`session_id = "api_" + key_id` and `answer = full_response`) and then
yield the done frame; on an exception yield a single error frame (the
`except` block) and nothing else. -/
def chatStreamTrace (keyId question : String) (run : ProducerRun) : List Event :=
  chunkListEvents run.chunks ++
    match run.outcome with
    | .exhausted =>
        [.effect (.logInteraction ("api_" ++ keyId) question (fullResponse run.chunks)),
         .frame .done]
    | .raised msg => [.frame (.error msg)]

/-- The generator of `api_archie_stream` in src/app.py: drain the producer;
on exhaustion, if a session id is present append the user question and the
accumulated answer to the session, then call
`data_collector.log_interaction` (session id `"no_session"` when absent),
then yield the done frame; on an exception only print a traceback — no
frame is yielded and nothing is persisted. -/
def appStreamTrace (sessionId : Option String) (question : String)
    (run : ProducerRun) : List Event :=
  chunkListEvents run.chunks ++
    match run.outcome with
    | .exhausted =>
        (match sessionId with
          | some sid =>
              [.effect (.addMessage sid "user" question),
               .effect (.addMessage sid "assistant" (fullResponse run.chunks))]
          | none => []) ++
        [.effect (.logInteraction (sessionId.getD "no_session") question
                    (fullResponse run.chunks)),
         .frame .done]
    | .raised _ => []

/-- The frames of a trace, in emission order. -/
def framesOf (tr : List Event) : List Frame :=
  tr.filterMap fun e => match e with | .frame f => some f | .effect _ => none

/-- The persistence calls of a trace, in program order. -/
def effectsOf (tr : List Event) : List Effect :=
  tr.filterMap fun e => match e with | .frame _ => none | .effect e => some e

/-- The frame corresponding to one chunk: token for a text delta, a
truncated tool_call for a tool event, nothing for the final sentinel. -/
def frameOfChunk : Chunk → Option Frame
  | .text s => some (.token s)
  | .toolEvent n r => some (.toolCall n (r.take TOOL_RESULT_PREVIEW_LENGTH))
  | .final => none

/-! ## Session store (src/lib/SessionManager.py).  Each session lives in
one file `sessions/<session_id>.json`.  The sessions directory is modelled
as a map from session id to the state of that file (absent, present with
parsed content, or present but unparsable), and every operation
additionally returns the trace of filesystem operations it performed on
session files, keyed by the session id. -/

/-- State of one backing file: missing, present but not valid JSON, or
present with parsed content. -/
inductive FileState (α : Type) where
  | absent
  | corrupt
  | present (data : α)
  deriving DecidableEq

structure Message where
  role : String
  content : String
  timestamp : String
  deriving DecidableEq

structure SessionData where
  session_id : String
  user_email : Option String
  created_at : String
  messages : List Message
  deriving DecidableEq

/-- The sessions directory: the file state for each session id. -/
def SessionsDir : Type := String → FileState SessionData

/-- A filesystem operation on a session file, keyed by the session id that
determines its path `sessions/<id>.json`. -/
inductive FSOp where
  | existsCheck (sessionId : String)
  | readFile (sessionId : String)
  | writeFile (sessionId : String)
  | removeFile (sessionId : String)
  deriving DecidableEq

/-- Membership of a character in the regex class `[a-zA-Z0-9_-]`. -/
def isSessionIdChar (c : Char) : Bool :=
  (decide ('a' ≤ c) && decide (c ≤ 'z')) ||
  (decide ('A' ≤ c) && decide (c ≤ 'Z')) ||
  (decide ('0' ≤ c) && decide (c ≤ '9')) ||
  c == '_' || c == '-'

/-- A nonempty run of charset characters, i.e. a string matched entirely by
`[a-zA-Z0-9_-]+`. -/
def charsetRun (cs : List Char) : Bool :=
  !cs.isEmpty && cs.all isSessionIdChar

/-- Python `bool(re.match(r'^[a-zA-Z0-9_-]+$', s))`.  In Python's `re`,
`$` matches at the end of the string or just before a newline that ends
the string, so `s` matches iff it is a nonempty charset run optionally
followed by one final newline. -/
def pyRegexMatch (s : String) : Bool :=
  charsetRun s.data ||
    (match s.data.getLast? with
      | some c => c == '\n' && charsetRun s.data.dropLast
      | none => false)

/-- Embedding of `SessionManager._is_valid_session_id`: the regex check plus
`len(session_id) <= 64`. -/
def isValidSessionId (sessionId : String) : Bool :=
  pyRegexMatch sessionId && decide (sessionId.length ≤ 64)

/-- Embedding of `SessionManager.get_session`: reject invalid ids without touching the
filesystem; otherwise `os.path.exists` then read and parse, returning
`None` for a missing or corrupt file. -/
def get_session (fs : SessionsDir) (sessionId : String) :
    Option SessionData × List FSOp :=
  if isValidSessionId sessionId then
    match fs sessionId with
    | .absent => (none, [.existsCheck sessionId])
    | .corrupt => (none, [.existsCheck sessionId, .readFile sessionId])
    | .present d => (some d, [.existsCheck sessionId, .readFile sessionId])
  else (none, [])

/-- Embedding of `SessionManager.save_session`: raise `ValueError` on an invalid id
before any write; otherwise overwrite the session file. -/
def save_session (fs : SessionsDir) (sessionId : String) (data : SessionData) :
    Except String SessionsDir × List FSOp :=
  if isValidSessionId sessionId then
    (.ok (fun s => if s = sessionId then .present data else fs s),
     [.writeFile sessionId])
  else (.error ("Invalid session_id format: " ++ sessionId), [])

/-- Embedding of `SessionManager.add_message`: load the session (building a fresh shell
record when the load yields `None`), append a timestamped message, then
`save_session` the whole record. -/
def add_message (fs : SessionsDir) (sessionId role content now : String) :
    Except String SessionsDir × List FSOp :=
  let loaded := get_session fs sessionId
  let data := match loaded.1 with
    | some d => d
    | none =>
        { session_id := sessionId, user_email := none,
          created_at := now, messages := [] }
  let data' := { data with
    messages := data.messages ++ [⟨role, content, now⟩] }
  let saved := save_session fs sessionId data'
  (saved.1, loaded.2 ++ saved.2)

structure UserData where
  email : String
  password_hash : String
  created_at : String
  sessions : List String
  deriving DecidableEq

/-- The `users.json` collection: mapping email → user record, insertion-ordered. -/
def Users : Type := List (String × UserData)

/-- Embedding of `SessionManager.create_session`: write the fresh session file with an
empty message list, then — when a logged-in owner exists in `users.json` —
append the id to that user's session list.  The generated
`secrets.token_urlsafe(32)` id is passed in explicitly. -/
def create_session (fs : SessionsDir) (users : Users)
    (userEmail : Option String) (sessionId now : String) :
    String × SessionsDir × Users × List FSOp :=
  let data : SessionData :=
    { session_id := sessionId, user_email := userEmail,
      created_at := now, messages := [] }
  let fs' : SessionsDir := fun s => if s = sessionId then .present data else fs s
  let users' := match userEmail with
    | none => users
    | some em =>
        if (users.find? (fun e => e.1 == em)).isSome then
          users.map (fun e =>
            if e.1 == em then
              (e.1, { e.2 with sessions := e.2.sessions ++ [sessionId] })
            else e)
        else users
  (sessionId, fs', users', [.writeFile sessionId])

/-- Embedding of `SessionManager.delete_session`: reject invalid ids without touching
the filesystem; return false when the file does not exist; otherwise
unlink the id from the owner's session list and remove the file. -/
def delete_session (fs : SessionsDir) (users : Users) (sessionId : String)
    (userEmail : Option String) : Bool × SessionsDir × Users × List FSOp :=
  if isValidSessionId sessionId then
    match fs sessionId with
    | .absent => (false, fs, users, [.existsCheck sessionId])
    | _ =>
        let users' := match userEmail with
          | none => users
          | some em =>
              users.map (fun e =>
                if e.1 == em then
                  (e.1, { e.2 with sessions := e.2.sessions.erase sessionId })
                else e)
        (true, fun s => if s = sessionId then .absent else fs s, users',
         [.existsCheck sessionId, .removeFile sessionId])
  else (false, fs, users, [])

/-- Embedding of `SessionManager._load_users`: return the parsed mapping, or an empty
mapping when the file is missing (`FileNotFoundError`) or unparsable
(`json.JSONDecodeError`). -/
def load_users (file : FileState Users) : Users :=
  match file with
  | .present m => m
  | .absent => []
  | .corrupt => []

/-! ## API key store (api.py, `APIKeyManager`).  Here `api_keys.json` maps
`key_id` to a key record; Python dicts preserve insertion order and
`validate_api_key` iterates `keys.items()` in that order, so the
collection is modelled as an insertion-ordered association list.  The
SHA-256 digest `_hash_key` is modelled as a parameter
`hash : String → String`; no property of it is assumed except where
a statement explicitly requires one. -/

structure APIKeyData where
  key_id : String
  key_hash : String
  name : String
  owner_email : String
  description : String
  created_at : String
  last_used : Option String
  is_active : Bool
  usage_count : Nat
  deriving DecidableEq

/-- The persisted `api_keys.json` collection. -/
abbrev KeyStore : Type := List (String × APIKeyData)

/-- Embedding of `APIKeyManager._load_keys`: the parsed mapping, or an empty mapping on
`FileNotFoundError` or `json.JSONDecodeError`. -/
def load_keys (file : FileState KeyStore) : KeyStore :=
  match file with
  | .present m => m
  | .absent => []
  | .corrupt => []

/-- Dict lookup `keys[key_id]` guarded by `key_id in keys`. -/
def lookupKey : KeyStore → String → Option APIKeyData
  | [], _ => none
  | (kid, d) :: rest, keyId => if kid = keyId then some d else lookupKey rest keyId

/-- Python dict assignment `keys[key_id] = d`: replace the value in place
when the key exists, else append at the end. -/
def insertOrReplace (keys : KeyStore) (keyId : String) (d : APIKeyData) :
    KeyStore :=
  if (lookupKey keys keyId).isSome then
    keys.map (fun e => if e.1 = keyId then (e.1, d) else e)
  else keys ++ [(keyId, d)]

/-- The part of `generate_api_key`'s response relevant here: the raw
secret is returned exactly once, alongside the public key id. -/
structure GenerateResult where
  key_id : String
  api_key : String
  deriving DecidableEq

/-- The record stored for a freshly generated key: digest of the secret,
`usage_count = 0`, `is_active = true`, `last_used = None`. -/
def newKeyData (hash : String → String)
    (keyId tok name ownerEmail description now : String) : APIKeyData :=
  { key_id := keyId, key_hash := hash ("archie_" ++ tok), name := name,
    owner_email := ownerEmail, description := description,
    created_at := now, last_used := none, is_active := true,
    usage_count := 0 }

/-- Embedding of `APIKeyManager.generate_api_key`: the secret is
`"archie_" + secrets.token_urlsafe(32)` (the random token is passed in as
`tok`, the random `key_id` likewise); only the digest of the secret is
stored, with `usage_count = 0` and `is_active = true`; the raw secret is
returned exactly once. -/
def generate_api_key (hash : String → String) (keys : KeyStore)
    (keyId tok name ownerEmail description now : String) :
    GenerateResult × KeyStore :=
  ({ key_id := keyId, api_key := "archie_" ++ tok },
   insertOrReplace keys keyId
     (newKeyData hash keyId tok name ownerEmail description now))

/-- The in-place usage-statistics update performed on a matched key:
`key_data["last_used"] = now; key_data["usage_count"] += 1`. -/
def bumpUsage (now : String) (d : APIKeyData) : APIKeyData :=
  { d with last_used := some now, usage_count := d.usage_count + 1 }

/-- The scan inside `validate_api_key`: find the first stored key whose
digest matches and which is active; update its `last_used` and
`usage_count` in place and return the updated record together with the
updated collection. -/
def updateFirstMatch (keyHash now : String) : KeyStore →
    Option (APIKeyData × KeyStore)
  | [] => none
  | (kid, d) :: rest =>
      if d.key_hash = keyHash ∧ d.is_active = true then
        some (bumpUsage now d, (kid, bumpUsage now d) :: rest)
      else
        match updateFirstMatch keyHash now rest with
        | none => none
        | some (r, rest') => some (r, (kid, d) :: rest')

/-- Embedding of `APIKeyManager.validate_api_key`: an empty (falsy) candidate is
rejected outright; otherwise, under the store's lock, scan for a
digest+active match, persist the incremented usage statistics, and return
a copy of the matched metadata — `None` when nothing matches. -/
def validate_api_key (hash : String → String) (keys : KeyStore)
    (apiKey now : String) : Option APIKeyData × KeyStore :=
  if apiKey = "" then (none, keys)
  else
    match updateFirstMatch (hash apiKey) now keys with
    | none => (none, keys)
    | some (d', keys') => (some d', keys')

/-- Embedding of `APIKeyManager.revoke_api_key`: fail when the key id is absent or the
stored owner differs; otherwise set that key's `is_active` to false and
persist. -/
def revoke_api_key (keys : KeyStore) (keyId ownerEmail : String) :
    Bool × KeyStore :=
  match lookupKey keys keyId with
  | none => (false, keys)
  | some d =>
      if d.owner_email = ownerEmail then
        (true, keys.map (fun e =>
          if e.1 = keyId then (e.1, { e.2 with is_active := false }) else e))
      else (false, keys)

/-- An API-key-store operation, for reasoning about what later calls can
do to the collection. -/
inductive Op where
  | generate (keyId tok name ownerEmail description now : String)
  | validate (apiKey now : String)
  | revoke (keyId ownerEmail : String)

/-- The store after one operation. -/
def applyOp (hash : String → String) (s : KeyStore) : Op → KeyStore
  | .generate keyId tok name owner desc now =>
      (generate_api_key hash s keyId tok name owner desc now).2
  | .validate apiKey now => (validate_api_key hash s apiKey now).2
  | .revoke keyId owner => (revoke_api_key s keyId owner).2

/-- The store after a sequence of operations. -/
def applyOps (hash : String → String) (ops : List Op) (s : KeyStore) :
    KeyStore :=
  ops.foldl (applyOp hash) s

/-- An operation that does not mint a secret with digest `h` (generation
uses fresh randomness, so a digest collision with an existing secret does
not occur). -/
def opAvoidsHash (hash : String → String) (h : String) : Op → Prop
  | .generate _ tok _ _ _ _ => hash ("archie_" ++ tok) ≠ h
  | .validate _ _ => True
  | .revoke _ _ => True

/-- No stored key both carries digest `h` and is active. -/
def NoActiveMatch (h : String) (s : KeyStore) : Prop :=
  ∀ e ∈ s, e.2.key_hash = h → e.2.is_active = false

/-- A concrete stored key used to instantiate the store theorems. -/
def demoKey : APIKeyData :=
  { key_id := "k1", key_hash := "r", name := "demo",
    owner_email := "alice", description := "", created_at := "t0",
    last_used := none, is_active := true, usage_count := 0 }

theorem framesOf_append (a b : List Event) :
    framesOf (a ++ b) = framesOf a ++ framesOf b :=
  List.filterMap_append a b _

theorem effectsOf_append (a b : List Event) :
    effectsOf (a ++ b) = effectsOf a ++ effectsOf b :=
  List.filterMap_append a b _

theorem framesOf_chunkListEvents (cs : List Chunk) :
    framesOf (chunkListEvents cs) = cs.filterMap frameOfChunk := by
  induction cs with
  | nil => rfl
  | cons c cs ih =>
      cases c <;>
        simp [chunkListEvents, chunkEvents, frameOfChunk, framesOf,
          List.filterMap_append] at ih ⊢ <;> exact ih

theorem effectsOf_chunkListEvents (cs : List Chunk) :
    effectsOf (chunkListEvents cs) = [] := by
  induction cs with
  | nil => rfl
  | cons c cs ih =>
      cases c <;>
        simp [chunkListEvents, chunkEvents, effectsOf,
          List.filterMap_append] at ih ⊢ <;> exact ih

/-- Frames arising from chunks are only tokens and tool calls. -/
theorem mem_filterMap_frameOfChunk (cs : List Chunk) (f : Frame)
    (hf : f ∈ cs.filterMap frameOfChunk) :
    (∃ s, f = .token s) ∨ ∃ n p, f = .toolCall n p := by
  rcases List.mem_filterMap.1 hf with ⟨c, _, hc⟩
  cases c with
  | text s => exact Or.inl ⟨s, by cases hc; rfl⟩
  | toolEvent n r =>
      exact Or.inr ⟨n, r.take TOOL_RESULT_PREVIEW_LENGTH, by cases hc; rfl⟩
  | final => cases hc

/-- C1: on a run that completes normally, both generators emit exactly the
per-chunk frames in producer order (tokens for text deltas, tool_call
frames for tool events, Final chunks ignored) followed by the done frame,
and the assistant message persisted to the session equals the
concatenation of the text deltas; in particular deltas "Hel","lo" give
frames token "Hel", token "lo", done and persisted text "Hello". -/
theorem stream_normal_completion (keyId question sid : String)
    (chunks : List Chunk) :
    framesOf (chatStreamTrace keyId question ⟨chunks, .exhausted⟩)
        = chunks.filterMap frameOfChunk ++ [.done]
  ∧ framesOf (appStreamTrace (some sid) question ⟨chunks, .exhausted⟩)
        = chunks.filterMap frameOfChunk ++ [.done]
  ∧ Event.effect (.addMessage sid "assistant" (fullResponse chunks))
        ∈ appStreamTrace (some sid) question ⟨chunks, .exhausted⟩
  ∧ framesOf (appStreamTrace (some sid) question
        ⟨[.text "Hel", .text "lo"], .exhausted⟩)
        = [.token "Hel", .token "lo", .done]
  ∧ fullResponse [.text "Hel", .text "lo"] = "Hello" := by
  have h1 : chatStreamTrace keyId question ⟨chunks, .exhausted⟩
      = chunkListEvents chunks ++
        [.effect (.logInteraction ("api_" ++ keyId) question (fullResponse chunks)),
         .frame .done] := rfl
  have h2 : appStreamTrace (some sid) question ⟨chunks, .exhausted⟩
      = chunkListEvents chunks ++
        [.effect (.addMessage sid "user" question),
         .effect (.addMessage sid "assistant" (fullResponse chunks)),
         .effect (.logInteraction sid question (fullResponse chunks)),
         .frame .done] := rfl
  refine ⟨?_, ?_, ?_, ?_, rfl⟩
  · rw [h1, framesOf_append, framesOf_chunkListEvents]
    rfl
  · rw [h2, framesOf_append, framesOf_chunkListEvents]
    rfl
  · rw [h2]
    simp
  · rfl

/-- C2 counterexample: the claim asserts that a producer failure always
yields the token frames followed by exactly one error frame, but the
src/app.py generator swallows the exception: after the delta "Hi" and a
failure "boom" its frame sequence is just the token frame, with no error
frame at all. -/
theorem app_stream_error_frame_missing :
    framesOf (appStreamTrace (some "s0") "q" ⟨[.text "Hi"], .raised "boom"⟩)
        = [.token "Hi"]
  ∧ framesOf (appStreamTrace (some "s0") "q" ⟨[.text "Hi"], .raised "boom"⟩)
        ≠ [.token "Hi", .error "boom"] := by
  have h1 : framesOf (appStreamTrace (some "s0") "q"
      ⟨[.text "Hi"], .raised "boom"⟩) = [.token "Hi"] := rfl
  refine ⟨h1, ?_⟩
  intro h
  rw [h1] at h
  simp at h

/-- C2 (amended): when the producer raises after its deltas, the api.py
generator emits the per-chunk frames followed by exactly one error frame
and no done frame, with no persistence call; the src/app.py generator
emits the per-chunk frames only — no error frame, no done frame — and
likewise makes no persistence call. -/
theorem stream_producer_failure (keyId question msg : String)
    (sid : Option String) (chunks : List Chunk) :
    framesOf (chatStreamTrace keyId question ⟨chunks, .raised msg⟩)
        = chunks.filterMap frameOfChunk ++ [.error msg]
  ∧ Frame.done ∉ framesOf (chatStreamTrace keyId question ⟨chunks, .raised msg⟩)
  ∧ effectsOf (chatStreamTrace keyId question ⟨chunks, .raised msg⟩) = []
  ∧ framesOf (appStreamTrace sid question ⟨chunks, .raised msg⟩)
        = chunks.filterMap frameOfChunk
  ∧ Frame.done ∉ framesOf (appStreamTrace sid question ⟨chunks, .raised msg⟩)
  ∧ effectsOf (appStreamTrace sid question ⟨chunks, .raised msg⟩) = [] := by
  have e1 : chatStreamTrace keyId question ⟨chunks, .raised msg⟩
      = chunkListEvents chunks ++ [.frame (.error msg)] := rfl
  have e2 : appStreamTrace sid question ⟨chunks, .raised msg⟩
      = chunkListEvents chunks ++ [] := rfl
  have hchat : framesOf (chatStreamTrace keyId question ⟨chunks, .raised msg⟩)
      = chunks.filterMap frameOfChunk ++ [.error msg] := by
    rw [e1, framesOf_append, framesOf_chunkListEvents]
    rfl
  have happ : framesOf (appStreamTrace sid question ⟨chunks, .raised msg⟩)
      = chunks.filterMap frameOfChunk := by
    rw [e2, framesOf_append, framesOf_chunkListEvents]
    simp [framesOf]
  refine ⟨hchat, ?_, ?_, happ, ?_, ?_⟩
  · rw [hchat]
    intro h
    rcases List.mem_append.1 h with h | h
    · rcases mem_filterMap_frameOfChunk _ _ h with ⟨s, hs⟩ | ⟨n, p, hnp⟩ <;>
        simp_all
    · simp_all
  · rw [e1, effectsOf_append, effectsOf_chunkListEvents]
    rfl
  · rw [happ]
    intro h
    rcases mem_filterMap_frameOfChunk _ _ h with ⟨s, hs⟩ | ⟨n, p, hnp⟩ <;> simp_all
  · rw [e2, effectsOf_append, effectsOf_chunkListEvents]
    rfl

/-- C3: on normal completion, every persistence effect — the session-store
writes in src/app.py and the analytics log in both generators — occurs
strictly before the done frame: each trace is a prefix containing those
effects followed by the done frame as its very last event. -/
theorem persistence_before_done (keyId question sid : String)
    (chunks : List Chunk) :
    (∃ pre,
      chatStreamTrace keyId question ⟨chunks, .exhausted⟩
          = pre ++ [.frame .done]
      ∧ Event.effect (.logInteraction ("api_" ++ keyId) question
            (fullResponse chunks)) ∈ pre
      ∧ Event.frame .done ∉ pre)
  ∧ (∃ pre,
      appStreamTrace (some sid) question ⟨chunks, .exhausted⟩
          = pre ++ [.frame .done]
      ∧ Event.effect (.addMessage sid "assistant" (fullResponse chunks)) ∈ pre
      ∧ Event.effect (.logInteraction sid question (fullResponse chunks)) ∈ pre
      ∧ Event.frame .done ∉ pre) := by
  have hdone : ∀ cs, Event.frame .done ∉ chunkListEvents cs := by
    intro cs h
    have := framesOf_chunkListEvents cs
    have hmem : Frame.done ∈ framesOf (chunkListEvents cs) := by
      unfold framesOf
      exact List.mem_filterMap.2 ⟨_, h, rfl⟩
    rw [this] at hmem
    rcases mem_filterMap_frameOfChunk _ _ hmem with ⟨s, hs⟩ | ⟨n, p, hnp⟩ <;>
      simp_all
  constructor
  · refine ⟨chunkListEvents chunks ++
      [.effect (.logInteraction ("api_" ++ keyId) question (fullResponse chunks))],
      ?_, ?_, ?_⟩
    · simp [chatStreamTrace]
    · simp
    · intro h
      rcases List.mem_append.1 h with h | h
      · exact hdone chunks h
      · simp_all
  · refine ⟨chunkListEvents chunks ++
      [.effect (.addMessage sid "user" question),
       .effect (.addMessage sid "assistant" (fullResponse chunks)),
       .effect (.logInteraction sid question (fullResponse chunks))],
      ?_, ?_, ?_, ?_⟩
    · simp [appStreamTrace]
    · simp
    · simp
    · intro h
      rcases List.mem_append.1 h with h | h
      · exact hdone chunks h
      · simp_all

/-- C6 evaluation at the failing input: the id "abc\n" contains a
character outside `[a-zA-Z0-9_-]`, yet `_is_valid_session_id` accepts it —
Python's `$` also matches just before a trailing newline — so both
`get_session` and `delete_session` go on to perform a filesystem
existence check keyed by that id, contrary to the claim (and to the
validator's own comment "Only allow alphanumeric, dash, and underscore
characters").  An id containing a path separator is, as claimed, rejected
without any filesystem access. -/
theorem session_id_trailing_newline_bug :
    "abc\n".data.all isSessionIdChar = false
  ∧ isValidSessionId "abc\n" = true
  ∧ (get_session (fun _ => .absent) "abc\n").2 = [.existsCheck "abc\n"]
  ∧ (delete_session (fun _ => .absent) [] "abc\n" none).2.2.2
      = [.existsCheck "abc\n"]
  ∧ isValidSessionId "a/b" = false
  ∧ get_session (fun _ => .absent) "a/b" = (none, [])
  ∧ (delete_session (fun _ => .absent) [] "a/b" none).1 = false
  ∧ (delete_session (fun _ => .absent) [] "a/b" none).2.2.2 = [] := by
  refine ⟨by decide, by decide, ?_, ?_, by decide, ?_, ?_, ?_⟩ <;> rfl

/-- C8: for every owner argument (present or absent), `create_session`
returns an id whose immediate `get_session` yields a record with that
`session_id` and an empty message list.  The hypothesis records that the
generated `secrets.token_urlsafe(32)` identifier passes the validity
check, which every 43-character URL-safe token does. -/
theorem create_then_get_session (fs : SessionsDir) (users : Users)
    (userEmail : Option String) (sessionId now : String)
    (hvalid : isValidSessionId sessionId = true) :
    (create_session fs users userEmail sessionId now).1 = sessionId
  ∧ (get_session (create_session fs users userEmail sessionId now).2.1
        (create_session fs users userEmail sessionId now).1).1
      = some { session_id := sessionId, user_email := userEmail,
               created_at := now, messages := [] } := by
  refine ⟨rfl, ?_⟩
  simp [create_session, get_session, hvalid]

theorem create_then_get_session_witness :
    (create_session (fun _ => .absent) [] (some "al") "abc123" "t0").1
        = "abc123"
  ∧ (get_session
        (create_session (fun _ => .absent) [] (some "al") "abc123" "t0").2.1
        (create_session (fun _ => .absent) [] (some "al") "abc123" "t0").1).1
      = some { session_id := "abc123", user_email := some "al",
               created_at := "t0", messages := [] } :=
  create_then_get_session (fun _ => .absent) [] (some "al") "abc123" "t0"
    (by decide)

/-- C10: for every session id failing the validity check, `add_message`
builds the shell record but `save_session` raises `ValueError` before any
write, so `add_message` propagates the error and performs no filesystem
operation at all for that id. -/
theorem add_message_invalid_id_no_write (fs : SessionsDir)
    (sessionId role content now : String)
    (hinvalid : isValidSessionId sessionId = false) :
    (add_message fs sessionId role content now).1
        = .error ("Invalid session_id format: " ++ sessionId)
  ∧ (add_message fs sessionId role content now).2 = [] := by
  constructor <;> simp [add_message, get_session, save_session, hinvalid]

theorem add_message_invalid_id_no_write_witness :
    (add_message (fun _ => .absent) "a/b" "user" "hi" "t0").1
        = .error ("Invalid session_id format: " ++ "a/b")
  ∧ (add_message (fun _ => .absent) "a/b" "user" "hi" "t0").2 = [] :=
  add_message_invalid_id_no_write (fun _ => .absent) "a/b" "user" "hi" "t0"
    (by decide)

theorem bumpUsage_key_id (now : String) (d : APIKeyData) :
    (bumpUsage now d).key_id = d.key_id := rfl

theorem bumpUsage_key_hash (now : String) (d : APIKeyData) :
    (bumpUsage now d).key_hash = d.key_hash := rfl

theorem bumpUsage_is_active (now : String) (d : APIKeyData) :
    (bumpUsage now d).is_active = d.is_active := rfl

theorem bumpUsage_usage_count (now : String) (d : APIKeyData) :
    (bumpUsage now d).usage_count = d.usage_count + 1 := rfl

/-- A generated secret carries the fixed `archie_` marker, so it is never
the empty (falsy) string that `validate_api_key` rejects outright. -/
theorem archie_ne_empty (tok : String) : ("archie_" ++ tok) ≠ "" := by
  intro h
  have hlen : "archie_".length + tok.length = "".length := by
    rw [← String.length_append, h]
  rw [show "archie_".length = 7 from rfl, show "".length = 0 from rfl] at hlen
  omega

/-- When no stored key is both active and of digest `h`, the scan finds
nothing. -/
theorem updateFirstMatch_eq_none (h now : String) :
    ∀ s : KeyStore, NoActiveMatch h s → updateFirstMatch h now s = none := by
  intro s
  induction s with
  | nil => intro _; rfl
  | cons e rest ih =>
      intro hs
      obtain ⟨kid, d⟩ := e
      have hcond : ¬(d.key_hash = h ∧ d.is_active = true) := by
        rintro ⟨hk, hact⟩
        have : d.is_active = false := hs (kid, d) (List.mem_cons_self _ _) hk
        rw [hact] at this
        cases this
      have hrest := ih fun e he hk => hs e (List.mem_cons_of_mem _ he) hk
      simp [updateFirstMatch, hcond, hrest]

/-- The scan skips a prefix carrying no key of digest `h` and updates the
first matching entry in place, leaving everything else untouched. -/
theorem updateFirstMatch_found (h now : String) (post : KeyStore)
    (kid : String) (d : APIKeyData)
    (hmatch : d.key_hash = h) (hact : d.is_active = true) :
    ∀ pre : KeyStore, (∀ e ∈ pre, e.2.key_hash ≠ h) →
      updateFirstMatch h now (pre ++ (kid, d) :: post)
        = some (bumpUsage now d, pre ++ (kid, bumpUsage now d) :: post) := by
  intro pre
  induction pre with
  | nil =>
      intro _
      simp [updateFirstMatch, hmatch, hact]
  | cons e pre ih =>
      intro hpre
      obtain ⟨k0, d0⟩ := e
      have hcond : ¬(d0.key_hash = h ∧ d0.is_active = true) := by
        rintro ⟨hk, _⟩
        exact hpre (k0, d0) (List.mem_cons_self _ _) hk
      have hrest := ih fun x hx => hpre x (List.mem_cons_of_mem _ hx)
      simp [updateFirstMatch, hcond, hrest]

/-- Structure of a successful scan: the store splits around the first
active matching entry, which is updated in place. -/
theorem updateFirstMatch_some (h now : String) :
    ∀ (s : KeyStore) (r : APIKeyData) (s' : KeyStore),
      updateFirstMatch h now s = some (r, s') →
      ∃ pre kid d post,
        s = pre ++ (kid, d) :: post ∧
        s' = pre ++ (kid, bumpUsage now d) :: post ∧
        r = bumpUsage now d ∧
        d.key_hash = h ∧ d.is_active = true := by
  intro s
  induction s with
  | nil => intro r s' hr; cases hr
  | cons e rest ih =>
      intro r s' hr
      obtain ⟨kid, d⟩ := e
      by_cases hcond : d.key_hash = h ∧ d.is_active = true
      · rw [updateFirstMatch, if_pos hcond] at hr
        injection hr with hr
        obtain ⟨hr1, hr2⟩ := Prod.mk.injEq .. ▸ hr
        exact ⟨[], kid, d, rest, rfl, by simp [hr2.symm], hr1.symm, hcond⟩
      · rw [updateFirstMatch, if_neg hcond] at hr
        cases hrec : updateFirstMatch h now rest with
        | none => rw [hrec] at hr; cases hr
        | some p =>
            obtain ⟨r0, rest'⟩ := p
            rw [hrec] at hr
            injection hr with hr
            obtain ⟨hr1, hr2⟩ := Prod.mk.injEq .. ▸ hr
            obtain ⟨pre, kid', d', post, h1, h2, h3, h4⟩ := ih r0 rest' hrec
            refine ⟨(kid, d) :: pre, kid', d', post, ?_, ?_, ?_, h4⟩
            · rw [h1]; rfl
            · rw [← hr2, h2]; rfl
            · rw [← hr1, h3]

/-- The operation `validate_api_key` returns `None` when no stored key is both active
and of the candidate's digest. -/
theorem validate_eq_none (hash : String → String) (s : KeyStore)
    (apiKey now : String) (hs : NoActiveMatch (hash apiKey) s) :
    (validate_api_key hash s apiKey now).1 = none := by
  unfold validate_api_key
  by_cases he : apiKey = ""
  · simp [he]
  · simp [he, updateFirstMatch_eq_none (hash apiKey) now s hs]

/-- Every entry after a dict assignment either carries the new record or
was already present. -/
theorem mem_insertOrReplace (keys : KeyStore) (keyId : String)
    (d : APIKeyData) (e : String × APIKeyData)
    (he : e ∈ insertOrReplace keys keyId d) :
    (e.1 = keyId ∧ e.2 = d) ∨ e ∈ keys := by
  unfold insertOrReplace at he
  by_cases hf : (lookupKey keys keyId).isSome = true
  · rw [if_pos hf] at he
    rcases List.mem_map.1 he with ⟨x, hx, hxe⟩
    by_cases hk : x.1 = keyId
    · left
      rw [if_pos hk] at hxe
      refine ⟨?_, ?_⟩ <;> rw [← hxe]
      exact hk
    · right
      rw [if_neg hk] at hxe
      rw [← hxe]
      exact hx
  · rw [if_neg hf] at he
    rcases List.mem_append.1 he with hm | hm
    · right; exact hm
    · left
      have hed : e = (keyId, d) := List.mem_singleton.1 hm
      rw [hed]
      exact ⟨rfl, rfl⟩

/-- After a dict assignment, looking the key id up yields the new
record. -/
theorem lookup_insertOrReplace (keys : KeyStore) (keyId : String)
    (d : APIKeyData) :
    lookupKey (insertOrReplace keys keyId d) keyId = some d := by
  unfold insertOrReplace
  by_cases hf : (lookupKey keys keyId).isSome = true
  · rw [if_pos hf]
    induction keys with
    | nil => simp [lookupKey] at hf
    | cons e keys ih =>
        obtain ⟨k0, d0⟩ := e
        by_cases hk : k0 = keyId
        · subst hk
          have hhead : (if (k0, d0).1 = k0 then ((k0, d0).1, d) else (k0, d0))
              = (k0, d) := by
            simp
          rw [List.map_cons, hhead]
          simp [lookupKey]
        · have hhead : (if (k0, d0).1 = keyId then ((k0, d0).1, d) else (k0, d0))
              = (k0, d0) := by
            simp [hk]
          simp only [lookupKey, hk, if_false] at hf
          rw [List.map_cons, hhead]
          simp [lookupKey, hk, ih hf]
  · rw [if_neg hf]
    have hnone : ∀ ks : KeyStore, (lookupKey ks keyId).isSome ≠ true →
        lookupKey (ks ++ [(keyId, d)]) keyId = some d := by
      intro ks
      induction ks with
      | nil => intro _; simp [lookupKey]
      | cons e ks ih =>
          intro hns
          obtain ⟨k0, d0⟩ := e
          by_cases hk : k0 = keyId
          · exfalso
            apply hns
            subst hk
            simp [lookupKey]
          · simp only [lookupKey, hk, if_false] at hns
            simp [lookupKey, hk, ih hns]
    exact hnone keys hf

/-- In the replace branch of a dict assignment whose new record is an
active match, the scan succeeds and returns the bumped new record. -/
theorem updateFirstMatch_map_replace (h now keyId : String)
    (dNew : APIKeyData) (hmatch : dNew.key_hash = h)
    (hact : dNew.is_active = true) :
    ∀ keys : KeyStore, (∀ e ∈ keys, e.2.key_hash ≠ h) →
      (lookupKey keys keyId).isSome = true →
      ∃ s', updateFirstMatch h now
          (keys.map (fun e => if e.1 = keyId then (e.1, dNew) else e))
        = some (bumpUsage now dNew, s') := by
  intro keys
  induction keys with
  | nil => intro _ hmem; simp [lookupKey] at hmem
  | cons e keys ih =>
      intro hfresh hmem
      obtain ⟨k0, d0⟩ := e
      by_cases hk : k0 = keyId
      · subst hk
        have hhead : (if (k0, d0).1 = k0 then ((k0, d0).1, dNew) else (k0, d0))
            = (k0, dNew) := by
          simp
        refine ⟨(k0, bumpUsage now dNew) :: keys.map
          (fun e => if e.1 = k0 then (e.1, dNew) else e), ?_⟩
        rw [List.map_cons, hhead]
        simp [updateFirstMatch, hmatch, hact]
      · have hhead : (if (k0, d0).1 = keyId then ((k0, d0).1, dNew) else (k0, d0))
            = (k0, d0) := by
          simp [hk]
        have hcond : ¬(d0.key_hash = h ∧ d0.is_active = true) := by
          rintro ⟨hkk, _⟩
          exact hfresh (k0, d0) (List.mem_cons_self _ _) hkk
        simp only [lookupKey, hk, if_false] at hmem
        obtain ⟨s'', hs''⟩ :=
          ih (fun x hx => hfresh x (List.mem_cons_of_mem _ hx)) hmem
        refine ⟨(k0, d0) :: s'', ?_⟩
        rw [List.map_cons, hhead]
        simp [updateFirstMatch, hcond, hs'']

/-- Validation never activates a key or changes any digest, so the
absence of an active match is stable under it. -/
theorem noActiveMatch_validate (hash : String → String) (h : String)
    (s : KeyStore) (apiKey now : String) (hs : NoActiveMatch h s) :
    NoActiveMatch h (validate_api_key hash s apiKey now).2 := by
  unfold validate_api_key
  by_cases he : apiKey = ""
  · simpa [he] using hs
  · rw [if_neg he]
    cases hu : updateFirstMatch (hash apiKey) now s with
    | none => simpa using hs
    | some p =>
        obtain ⟨r, s'⟩ := p
        obtain ⟨pre, kid, d, post, hsplit, hsplit', _, _, _⟩ :=
          updateFirstMatch_some (hash apiKey) now s r s' hu
        intro e he' hkeq
        rw [hsplit'] at he'
        rcases List.mem_append.1 he' with hm | hm
        · exact hs e (hsplit ▸ List.mem_append.2 (Or.inl hm)) hkeq
        · rcases List.mem_cons.1 hm with rfl | hm
          · have hd : d.is_active = false := by
              apply hs (kid, d)
                (hsplit ▸ List.mem_append.2 (Or.inr (List.mem_cons_self _ _)))
              exact hkeq
            exact hd
          · exact hs e
              (hsplit ▸ List.mem_append.2 (Or.inr (List.mem_cons_of_mem _ hm)))
              hkeq

/-- Generation with a fresh secret cannot create an active match for an
old digest. -/
theorem noActiveMatch_generate (hash : String → String) (h : String)
    (s : KeyStore) (keyId tok name owner desc now : String)
    (htok : hash ("archie_" ++ tok) ≠ h) (hs : NoActiveMatch h s) :
    NoActiveMatch h (generate_api_key hash s keyId tok name owner desc now).2 := by
  intro e he hkeq
  rcases mem_insertOrReplace s keyId
      (newKeyData hash keyId tok name owner desc now) e he with ⟨h1, h2⟩ | hmem
  · exfalso
    apply htok
    rw [← hkeq, h2]
    rfl
  · exact hs e hmem hkeq

/-- Revocation only deactivates keys, so the absence of an active match
is stable under it. -/
theorem noActiveMatch_revoke (h : String) (s : KeyStore)
    (keyId owner : String) (hs : NoActiveMatch h s) :
    NoActiveMatch h (revoke_api_key s keyId owner).2 := by
  unfold revoke_api_key
  cases hl : lookupKey s keyId with
  | none => simpa using hs
  | some d =>
      dsimp only
      by_cases howner : d.owner_email = owner
      · rw [if_pos howner]
        intro e he hkeq
        rcases List.mem_map.1 he with ⟨x, hx, hxe⟩
        by_cases hk : x.1 = keyId
        · rw [if_pos hk] at hxe
          rw [← hxe]
        · rw [if_neg hk] at hxe
          rw [← hxe] at hkeq ⊢
          exact hs x hx hkeq
      · rw [if_neg howner]
        exact hs

/-- One store operation avoiding digest `h` preserves the absence of an
active match for `h`. -/
theorem noActiveMatch_applyOp (hash : String → String) (h : String)
    (s : KeyStore) (op : Op) (hop : opAvoidsHash hash h op)
    (hs : NoActiveMatch h s) : NoActiveMatch h (applyOp hash s op) := by
  cases op with
  | generate keyId tok name owner desc now =>
      exact noActiveMatch_generate hash h s keyId tok name owner desc now hop hs
  | validate apiKey now => exact noActiveMatch_validate hash h s apiKey now hs
  | revoke keyId owner => exact noActiveMatch_revoke h s keyId owner hs

/-- A whole sequence of operations avoiding digest `h` preserves the
absence of an active match for `h`. -/
theorem noActiveMatch_applyOps (hash : String → String) (h : String) :
    ∀ (ops : List Op) (s : KeyStore),
      (∀ op ∈ ops, opAvoidsHash hash h op) → NoActiveMatch h s →
      NoActiveMatch h (applyOps hash ops s) := by
  intro ops
  induction ops with
  | nil => intro s _ hs; exact hs
  | cons op ops ih =>
      intro s hops hs
      exact ih (applyOp hash s op)
        (fun o ho => hops o (List.mem_cons_of_mem _ ho))
        (noActiveMatch_applyOp hash h s op (hops op (List.mem_cons_self _ _)) hs)

/-- C4: validating the raw secret returned by `generate_api_key`
immediately succeeds, returning the key's metadata (active, first use
counted); after a successful `revoke_api_key` by the owner, every
subsequent validation of that raw secret returns `None`, whatever store
operations happen in between (provided, as the randomness guarantees,
that no later generation mints a secret with the same digest).  The
freshness hypothesis states that no pre-existing key carries the new
secret's digest. -/
theorem generate_validate_revoke (hash : String → String) (keys : KeyStore)
    (keyId tok name owner description now now2 : String)
    (hfresh : ∀ e ∈ keys, e.2.key_hash ≠ hash ("archie_" ++ tok)) :
    (generate_api_key hash keys keyId tok name owner description now).1.api_key
        = "archie_" ++ tok
  ∧ (∃ d, (validate_api_key hash
        (generate_api_key hash keys keyId tok name owner description now).2
        (generate_api_key hash keys keyId tok name owner description now).1.api_key
        now2).1 = some d
      ∧ d.key_id = keyId ∧ d.is_active = true ∧ d.usage_count = 1)
  ∧ (revoke_api_key
        (generate_api_key hash keys keyId tok name owner description now).2
        keyId owner).1 = true
  ∧ ∀ ops : List Op,
      (∀ op ∈ ops, opAvoidsHash hash (hash ("archie_" ++ tok)) op) →
      (validate_api_key hash
        (applyOps hash ops
          (revoke_api_key
            (generate_api_key hash keys keyId tok name owner description now).2
            keyId owner).2)
        (generate_api_key hash keys keyId tok name owner description now).1.api_key
        now2).1 = none := by
  have hstore : (generate_api_key hash keys keyId tok name owner description now).2
      = insertOrReplace keys keyId
          (newKeyData hash keyId tok name owner description now) := rfl
  have hmatch : (newKeyData hash keyId tok name owner description now).key_hash
      = hash ("archie_" ++ tok) := rfl
  have hact : (newKeyData hash keyId tok name owner description now).is_active
      = true := rfl
  have hlook := lookup_insertOrReplace keys keyId
    (newKeyData hash keyId tok name owner description now)
  have key_eq : (generate_api_key hash keys keyId tok name owner
      description now).1.api_key = "archie_" ++ tok := rfl
  have howner : (newKeyData hash keyId tok name owner
      description now).owner_email = owner := rfl
  refine ⟨rfl, ?_, ?_, ?_⟩
  · rw [hstore, key_eq]
    unfold validate_api_key
    rw [if_neg (archie_ne_empty tok)]
    unfold insertOrReplace
    by_cases hf : (lookupKey keys keyId).isSome = true
    · rw [if_pos hf]
      obtain ⟨s', hs'⟩ := updateFirstMatch_map_replace
        (hash ("archie_" ++ tok)) now2 keyId
        (newKeyData hash keyId tok name owner description now)
        hmatch hact keys hfresh hf
      rw [hs']
      exact ⟨bumpUsage now2 (newKeyData hash keyId tok name owner description now),
        rfl, rfl, rfl, rfl⟩
    · rw [if_neg hf]
      have hfound := updateFirstMatch_found (hash ("archie_" ++ tok)) now2 []
        keyId (newKeyData hash keyId tok name owner description now)
        hmatch hact keys hfresh
      rw [hfound]
      exact ⟨bumpUsage now2 (newKeyData hash keyId tok name owner description now),
        rfl, rfl, rfl, rfl⟩
  · rw [hstore]
    unfold revoke_api_key
    rw [hlook]
    dsimp only
    rw [if_pos howner]
  · intro ops hops
    apply validate_eq_none
    apply noActiveMatch_applyOps hash _ ops _ hops
    rw [hstore]
    unfold revoke_api_key
    rw [hlook]
    dsimp only
    rw [if_pos howner]
    dsimp only
    intro e he hkeq
    rcases List.mem_map.1 he with ⟨x, hx, hxe⟩
    by_cases hk : x.1 = keyId
    · rw [if_pos hk] at hxe
      rw [← hxe]
    · rw [if_neg hk] at hxe
      rcases mem_insertOrReplace keys keyId
          (newKeyData hash keyId tok name owner description now) x hx with
        ⟨h1, _⟩ | hmem
      · exact absurd h1 hk
      · exfalso
        apply hfresh x hmem
        rw [← hxe] at hkeq
        exact hkeq

theorem generate_validate_revoke_witness :
    ((generate_api_key (fun s => s) [] "k1" "T" "nm" "alice" "" "t0").1.api_key
        = "archie_" ++ "T")
  ∧ (∃ d, (validate_api_key (fun s => s)
        (generate_api_key (fun s => s) [] "k1" "T" "nm" "alice" "" "t0").2
        (generate_api_key (fun s => s) [] "k1" "T" "nm" "alice" "" "t0").1.api_key
        "t1").1 = some d
      ∧ d.key_id = "k1" ∧ d.is_active = true ∧ d.usage_count = 1)
  ∧ (revoke_api_key
        (generate_api_key (fun s => s) [] "k1" "T" "nm" "alice" "" "t0").2
        "k1" "alice").1 = true
  ∧ ∀ ops : List Op,
      (∀ op ∈ ops, opAvoidsHash (fun s => s) ((fun s => s) ("archie_" ++ "T")) op) →
      (validate_api_key (fun s => s)
        (applyOps (fun s => s) ops
          (revoke_api_key
            (generate_api_key (fun s => s) [] "k1" "T" "nm" "alice" "" "t0").2
            "k1" "alice").2)
        (generate_api_key (fun s => s) [] "k1" "T" "nm" "alice" "" "t0").1.api_key
        "t1").1 = none :=
  generate_validate_revoke (fun s => s) [] "k1" "T" "nm" "alice" "" "t0" "t1"
    (by simp)

/-- One serialized `validate_api_key` call on a store whose only key of
the candidate's digest is `(kid, d)`, active, bumps exactly that key. -/
theorem validate_step (hash : String → String) (pre post : KeyStore)
    (kid raw now : String) (d : APIKeyData)
    (hraw : raw ≠ "") (hmatch : d.key_hash = hash raw)
    (hact : d.is_active = true)
    (hpre : ∀ e ∈ pre, e.2.key_hash ≠ hash raw) :
    validate_api_key hash (pre ++ (kid, d) :: post) raw now
      = (some (bumpUsage now d), pre ++ (kid, bumpUsage now d) :: post) := by
  unfold validate_api_key
  rw [if_neg hraw,
    updateFirstMatch_found (hash raw) now post kid d hmatch hact pre hpre]

/-- C5: the store lock in `validate_api_key` makes each concurrent call's
load–match–increment–save cycle atomic, so N concurrent calls are
equivalent to N sequential iterations of the call; iterating N validations
of the raw secret of the single matching active key leaves every other
entry untouched and yields a persisted `usage_count` of exactly
`usage_count + N`. -/
theorem concurrent_validate_usage (hash : String → String)
    (pre post : KeyStore) (kid raw now : String)
    (hraw : raw ≠ "")
    (hpre : ∀ e ∈ pre, e.2.key_hash ≠ hash raw) :
    ∀ (n : Nat) (d : APIKeyData), d.key_hash = hash raw → d.is_active = true →
      ∃ d', Nat.iterate (fun s => (validate_api_key hash s raw now).2) n
              (pre ++ (kid, d) :: post)
            = pre ++ (kid, d') :: post
          ∧ d'.usage_count = d.usage_count + n
          ∧ d'.is_active = true := by
  intro n
  induction n with
  | zero =>
      intro d _ hact
      exact ⟨d, rfl, rfl, hact⟩
  | succ n ih =>
      intro d hmatch hact
      have hstep := validate_step hash pre post kid raw now d
        hraw hmatch hact hpre
      have hiter : Nat.iterate (fun s => (validate_api_key hash s raw now).2)
          (n + 1) (pre ++ (kid, d) :: post)
          = Nat.iterate (fun s => (validate_api_key hash s raw now).2) n
              ((validate_api_key hash (pre ++ (kid, d) :: post) raw now).2) := rfl
      obtain ⟨d', hd1, hd2, hd3⟩ := ih (bumpUsage now d) hmatch hact
      refine ⟨d', ?_, ?_, hd3⟩
      · rw [hiter, hstep]
        exact hd1
      · rw [hd2, bumpUsage_usage_count]
        omega

/-- C7: `revoke_api_key` fails, leaving the persisted collection — in
particular every `is_active` flag — unchanged, when the key id is absent
or the stored owner differs from the caller; on success it returns true
and flips exactly the targeted key's `is_active` to false, preserving
every other entry and every other field verbatim. -/
theorem revoke_spec (keys : KeyStore) (keyId owner : String) :
    (lookupKey keys keyId = none →
        revoke_api_key keys keyId owner = (false, keys))
  ∧ (∀ d, lookupKey keys keyId = some d → d.owner_email ≠ owner →
        revoke_api_key keys keyId owner = (false, keys))
  ∧ (∀ d, lookupKey keys keyId = some d → d.owner_email = owner →
        (revoke_api_key keys keyId owner).1 = true
      ∧ List.Forall₂ (fun (e e' : String × APIKeyData) =>
            e'.1 = e.1
          ∧ (e.1 = keyId → e'.2 = { e.2 with is_active := false })
          ∧ (e.1 ≠ keyId → e'.2 = e.2))
          keys (revoke_api_key keys keyId owner).2) := by
  refine ⟨?_, ?_, ?_⟩
  · intro hnone
    unfold revoke_api_key
    rw [hnone]
  · intro d hd hne
    unfold revoke_api_key
    rw [hd]
    dsimp only
    rw [if_neg hne]
  · intro d hd howner
    unfold revoke_api_key
    rw [hd]
    dsimp only
    rw [if_pos howner]
    refine ⟨rfl, ?_⟩
    dsimp only
    rw [List.forall₂_map_right_iff]
    rw [List.forall₂_same]
    intro x _
    by_cases hk : x.1 = keyId
    · rw [if_pos hk]
      exact ⟨rfl, fun _ => rfl, fun hne => absurd hk hne⟩
    · rw [if_neg hk]
      exact ⟨rfl, fun heq => absurd heq hk, fun _ => rfl⟩

theorem revoke_spec_witness :
    revoke_api_key [("k1", demoKey)] "k1" "bob" = (false, [("k1", demoKey)])
  ∧ (revoke_api_key [("k1", demoKey)] "k1" "alice").1 = true :=
  ⟨(revoke_spec [("k1", demoKey)] "k1" "bob").2.1 demoKey rfl (by decide),
   ((revoke_spec [("k1", demoKey)] "k1" "alice").2.2 demoKey rfl rfl).1⟩

theorem concurrent_validate_usage_witness :
    ∃ d', Nat.iterate
            (fun s => (validate_api_key (fun s => s) s "r" "t1").2) 3
            ([] ++ ("k1", demoKey) :: [])
          = [] ++ ("k1", d') :: []
        ∧ d'.usage_count = demoKey.usage_count + 3
        ∧ d'.is_active = true :=
  concurrent_validate_usage (fun s => s) [] [] "k1" "r" "t1"
    (by decide) (by simp) 3 demoKey rfl rfl

/-- C9: both persisted-collection loaders (`_load_users` in
SessionManager and `_load_keys` in APIKeyManager) return the parsed
mapping when the backing file parses, and fail open to an empty mapping
when the file is absent or unparsable. -/
theorem load_fails_open (m : KeyStore) (u : Users) :
    load_keys (.present m) = m
  ∧ load_keys .absent = []
  ∧ load_keys .corrupt = []
  ∧ load_users (.present u) = u
  ∧ load_users .absent = []
  ∧ load_users .corrupt = [] :=
  ⟨rfl, rfl, rfl, rfl, rfl, rfl⟩

end ArchieAI

